/-
Verification of the Scene Controller (src/render/sceneController.ts) and the
Clear-message handling of the host process (src/main.ts).

The embedding is shallow:
  * a Babylon mesh becomes a `Mesh` record (stamped string id, position,
    enabled flag, material, pickable flag);
  * the scene's collection of entity meshes becomes a list `meshes`, indexed
    by allocation order; mesh object identity (JavaScript reference equality,
    used by `this.hoveredEntity == this.selectedEntity`) becomes equality of
    indices into that list;
  * the three shared material instances become the three-constructor
    inductive `Material`;
  * the JavaScript `Map<number, Mesh>` becomes an association list from
    entity id to mesh index, with `Map.set` / `Map.get` semantics;
  * the nullable fields `selectedEntity` / `hoveredEntity` become
    `Option Nat` (mesh indices);
  * positions are copied verbatim and never computed with, so their
    coordinates are modelled as integers.
-/
import Mathlib

namespace Project

/-- Position in 3D; coordinates only pass through `position.set`, never
arithmetic, so an integer carrier is faithful. -/
structure Vec3 where
  x : Int
  y : Int
  z : Int
deriving DecidableEq, Repr

/-- Modelled from the spec: `RECORDING.IEntity` (RecordingData is not part of
the excerpt): an entity is identified by an integer id and carries a derived
3D position. -/
structure IEntity where
  id : Int
  pos : Vec3
deriving DecidableEq, Repr

/-- Modelled from the spec: `NaiveRecordedData.getEntityPosition` derives the
entity's position; modelled as reading the stored position field. -/
def getEntityPosition (e : IEntity) : Vec3 := e.pos

/-- The three shared material instances created in `createScene`
(`entityMaterial`, `selectedMaterial`, `hoveredMaterial`); they are distinct
objects, so reference equality is constructor equality. -/
inductive Material where
  | entityMat
  | selectedMat
  | hoveredMat
deriving DecidableEq, Repr

open Material

/-- Little-endian decimal digits of `n`, with explicit fuel so the recursion
is structural (`fuel ≥ n` suffices). -/
def digitsRev (fuel : Nat) (n : Nat) : List Nat :=
  match fuel with
  | 0 => []
  | fuel + 1 => if n = 0 then [] else (n % 10) :: digitsRev fuel (n / 10)

/-- Decimal digit characters of a natural number, most significant first. -/
def natDigitChars (n : Nat) : List Char :=
  if n = 0 then ['0'] else ((digitsRev n n).reverse).map Nat.digitChar

/-- Model of JavaScript number-to-string conversion for integers
(`"" + entity.id`): decimal digits, minus sign when negative. -/
def jsNumToString (n : Int) : String :=
  if n < 0 then String.mk ('-' :: natDigitChars n.natAbs)
  else String.mk (natDigitChars n.natAbs)

/-- A decimal digit character, as `parseInt` classifies it. -/
def parseDigit (c : Char) : Option Nat :=
  if 48 ≤ c.toNat ∧ c.toNat ≤ 57 then some (c.toNat - 48) else none

def parseStep (acc : Option Nat) (c : Char) : Option Nat :=
  match acc, parseDigit c with
  | some a, some d => some (a * 10 + d)
  | _, _ => none

/-- Parse a non-empty all-digit character list as a natural number. -/
def parseNatChars (cs : List Char) : Option Nat :=
  if cs = [] then none else cs.foldl parseStep (some 0)

/-- Model of the JavaScript builtin `parseInt` on the strings the scene
stamps (an optional minus sign followed by decimal digits); `none` models
NaN. -/
def parseIntJS (s : String) : Option Int :=
  match s.data with
  | [] => none
  | c :: rest =>
      if c = '-' then (parseNatChars rest).map (fun m : Nat => -(m : Int))
      else (parseNatChars (c :: rest)).map (fun m : Nat => (m : Int))

/-- An entity mesh as the controller sees it. `sid` is the stamped string
identifier (`sphere.id = "" + entity.id`). -/
structure Mesh where
  name : String
  sid : String
  position : Vec3
  enabled : Bool
  material : Material
  isPickable : Bool
deriving DecidableEq, Repr

/-- Model of `Map.get`: first (and, under `mapSet`, only) binding of the key. -/
def mapGet (m : List (Int × Nat)) (k : Int) : Option Nat :=
  match m with
  | [] => none
  | (k', v') :: t => if k' = k then some v' else mapGet t k

/-- Model of `Map.set`: replace the binding in place if the key is present, else
append (JavaScript `Map` keeps insertion order). -/
def mapSet (m : List (Int × Nat)) (k : Int) (v : Nat) : List (Int × Nat) :=
  match m with
  | [] => [(k, v)]
  | (k', v') :: t => if k' = k then (k, v) :: t else (k', v') :: mapSet t k v

/-- Point update of the mesh list (mutation of one mesh object). Out of
range, nothing happens; indices handed out by `createEntity` are in range. -/
def listModify (l : List Mesh) (r : Nat) (f : Mesh → Mesh) : List Mesh :=
  match l, r with
  | [], _ => []
  | m :: t, 0 => f m :: t
  | m :: t, Nat.succ n => m :: listModify t n f

/-- The mutable state of `SceneController` that the claims are about:
the scene's entity meshes (in creation order), the id→mesh map, and the two
non-owning back-references. -/
structure SceneController where
  meshes : List Mesh
  entities : List (Int × Nat)
  selectedEntity : Option Nat
  hoveredEntity : Option Nat
deriving DecidableEq, Repr

namespace SceneController

/-- State right after `initialize`: empty map, no meshes, no selection or
hover (the back-reference fields start out undefined, which is falsy). -/
def init : SceneController :=
  { meshes := [], entities := [], selectedEntity := none, hoveredEntity := none }

/-- Observation: the mesh object at index `r`, if allocated. -/
def meshAt (s : SceneController) (r : Nat) : Option Mesh := s.meshes.get? r

/-- Observation: the displayed material of the mesh at index `r`. -/
def matOf (s : SceneController) (r : Nat) : Option Material :=
  (s.meshAt r).map Mesh.material

/-- Observation: the enabled flag of the mesh at index `r`. -/
def enabledOf (s : SceneController) (r : Nat) : Option Bool :=
  (s.meshAt r).map Mesh.enabled

def modifyAt (s : SceneController) (r : Nat) (f : Mesh → Mesh) : SceneController :=
  { s with meshes := listModify s.meshes r f }

/-- Embedding of `createEntity`: allocate a fresh sphere mesh (pickable, default material,
identifier stamped with the entity id as a string), register it in the map,
return it. The fresh mesh is the next index of the scene list; a Babylon
mesh starts enabled at the origin. -/
def createEntity (e : IEntity) (s : SceneController) : SceneController × Nat :=
  let r := s.meshes.length
  let sphere : Mesh :=
    { name := "sphere"
      sid := jsNumToString e.id
      position := ⟨0, 0, 0⟩
      enabled := true
      material := entityMat
      isPickable := true }
  ({ s with meshes := s.meshes ++ [sphere], entities := mapSet s.entities e.id r }, r)

/-- Embedding of `setEntity`: look up or lazily create the mesh, then set its position
from the entity's derived position and enable it. -/
def setEntity (e : IEntity) (s : SceneController) : SceneController :=
  match mapGet s.entities e.id with
  | some r =>
      s.modifyAt r (fun m => { m with position := getEntityPosition e, enabled := true })
  | none =>
      let c := createEntity e s
      c.1.modifyAt c.2 (fun m => { m with position := getEntityPosition e, enabled := true })

/-- Disable the meshes at the listed indices, in order. -/
def disableRefs (l : List Mesh) (rs : List Nat) : List Mesh :=
  rs.foldl (fun acc r => listModify acc r (fun m => { m with enabled := false })) l

/-- Embedding of `hideAllEntities`: disable every mesh stored in the map (iteration over
`entities.values()`). -/
def hideAllEntities (s : SceneController) : SceneController :=
  { s with meshes := disableRefs s.meshes (s.entities.map Prod.snd) }

/-- Embedding of `markEntityAsSelected`: if a mesh exists for the id, restore the
previously selected mesh (if any) to the default material, give the new mesh
the selected material and update the back-reference; otherwise do nothing. -/
def markEntityAsSelected (id : Int) (s : SceneController) : SceneController :=
  match mapGet s.entities id with
  | none => s
  | some r =>
      let s1 :=
        match s.selectedEntity with
        | some sr => s.modifyAt sr (fun m => { m with material := entityMat })
        | none => s
      let s2 := s1.modifyAt r (fun m => { m with material := selectedMat })
      { s2 with selectedEntity := some r }

/-- Embedding of `onEntityHovered`: if a mesh exists for the id, restore the previously
hovered mesh (selected material if it is the selected mesh, else default),
give the new mesh the hover material and update the back-reference;
otherwise do nothing. -/
def onEntityHovered (id : Int) (s : SceneController) : SceneController :=
  match mapGet s.entities id with
  | none => s
  | some r =>
      let s1 :=
        match s.hoveredEntity with
        | some hr =>
            if s.selectedEntity = some hr then
              s.modifyAt hr (fun m => { m with material := selectedMat })
            else
              s.modifyAt hr (fun m => { m with material := entityMat })
        | none => s
      let s2 := s1.modifyAt r (fun m => { m with material := hoveredMat })
      { s2 with hoveredEntity := some r }

/-- Embedding of `onEntityStopHovered`: restore the hovered mesh (selected material if it
is the selected mesh, else default) and null the back-reference. -/
def onEntityStopHovered (s : SceneController) : SceneController :=
  let s1 :=
    match s.hoveredEntity with
    | some hr =>
        if s.selectedEntity = some hr then
          s.modifyAt hr (fun m => { m with material := selectedMat })
        else
          s.modifyAt hr (fun m => { m with material := entityMat })
    | none => s
  { s1 with hoveredEntity := none }

end SceneController

/-- The controller operations a client can invoke (the pointer handlers call
`onEntityHovered` / `onEntityStopHovered`, external code calls the rest). -/
inductive Op where
  | create (e : IEntity)
  | set (e : IEntity)
  | hideAll
  | select (id : Int)
  | hover (id : Int)
  | stopHover
deriving DecidableEq, Repr

open SceneController in
/-- One controller step. -/
def step (s : SceneController) : Op → SceneController
  | Op.create e => (createEntity e s).1
  | Op.set e => setEntity e s
  | Op.hideAll => hideAllEntities s
  | Op.select id => markEntityAsSelected id s
  | Op.hover id => onEntityHovered id s
  | Op.stopHover => onEntityStopHovered s

/-- Run a sequence of operations from the freshly initialized controller. -/
def run (ops : List Op) : SceneController :=
  ops.foldl step SceneController.init

/-- A state the controller can actually be in. -/
def Reachable (s : SceneController) : Prop :=
  ∃ ops : List Op, run ops = s

/-- What `scene.onPointerDown` receives from the engine: whether the ray
pick hit a pickable mesh, and the hit mesh's stamped identifier. -/
structure PickResult where
  hit : Bool
  pickedMeshId : String
deriving DecidableEq, Repr

/-- The `scene.onPointerDown` handler: on a hit, invoke
`onEntitySelected(parseInt(pickResult.pickedMesh.id))`. The second component
is the argument of that callback invocation (`none` when no callback fires,
`some none` models calling it with NaN); the controller state is returned
unchanged because the handler body performs no mutation. -/
def onPointerDown (s : SceneController) (pr : PickResult) :
    SceneController × Option (Option Int) :=
  (s, if pr.hit then some (parseIntJS pr.pickedMeshId) else none)

open SceneController

/-- An update pass after the initial hide: `setEntity` for each entity
present in the frame, in order. -/
def runSets (s : SceneController) (es : List IEntity) : SceneController :=
  es.foldl (fun t e => setEntity e t) s

/-- The inductive invariant of the controller: map indices point into the
scene list, the back-references point into the scene list, the map is
one-to-one (no duplicate ids, no shared mesh), and the hover (resp.
selected) material is displayed only by the mesh the hover (resp.
selection) back-reference designates. -/
structure Inv (s : SceneController) : Prop where
  refsValid : ∀ p ∈ s.entities, p.2 < s.meshes.length
  selValid : ∀ r, s.selectedEntity = some r → r < s.meshes.length
  hovValid : ∀ r, s.hoveredEntity = some r → r < s.meshes.length
  keysNodup : (s.entities.map Prod.fst).Nodup
  valsNodup : (s.entities.map Prod.snd).Nodup
  hovMat : ∀ r, s.matOf r = some Material.hoveredMat → s.hoveredEntity = some r
  selMat : ∀ r, s.matOf r = some Material.selectedMat → s.selectedEntity = some r

/-- The per-process session options of the host (main.ts). -/
structure SessionOptions where
  showClearDataDialog : Bool
deriving DecidableEq, Repr

/-- The payload of a ClearResult reply. -/
structure ClearPayload where
  clear : Bool
  remember : Bool
deriving DecidableEq, Repr

/-- The outcome of the confirmation dialog: pressed button index
(0 = "Remove data", 1 = "Cancel") and the "Don't ask again" checkbox. -/
structure DialogResult where
  response : Nat
  checkboxChecked : Bool
deriving DecidableEq, Repr

/-- The Clear case of the `asynchronous-message` switch in main.ts. If the
session flag says to skip the dialog, reply `{clear: true, remember: true}`
at once; otherwise show the dialog and, in its callback, let
`shouldClear := response == 0`, drop the dialog flag when `shouldClear`
and the checkbox are both set, and reply `{clear: shouldClear,
remember: checkboxChecked}`. The returned payload is the single
ClearResult reply sent for the message. -/
def handleClear (s : SessionOptions) (dialog : DialogResult) :
    SessionOptions × ClearPayload :=
  if !s.showClearDataDialog then
    (s, { clear := true, remember := true })
  else
    let shouldClear : Bool := dialog.response == 0
    let s' := if shouldClear && dialog.checkboxChecked then
        { s with showClearDataDialog := false } else s
    (s', { clear := shouldClear, remember := dialog.checkboxChecked })

/-! ### Basic lemmas about the heap and the id→mesh map -/

theorem length_listModify (l : List Mesh) (r : Nat) (f : Mesh → Mesh) :
    (listModify l r f).length = l.length := by
  induction l generalizing r with
  | nil => rfl
  | cons m t ih =>
    cases r with
    | zero => rfl
    | succ n => simpa [listModify] using ih n

theorem get?_listModify_self (l : List Mesh) (r : Nat) (f : Mesh → Mesh) :
    (listModify l r f).get? r = (l.get? r).map f := by
  induction l generalizing r with
  | nil => cases r <;> rfl
  | cons m t ih =>
    cases r with
    | zero => rfl
    | succ n => simpa [listModify] using ih n

theorem get?_listModify_ne (l : List Mesh) (r r' : Nat) (f : Mesh → Mesh)
    (h : r ≠ r') : (listModify l r f).get? r' = l.get? r' := by
  induction l generalizing r r' with
  | nil => cases r' <;> rfl
  | cons m t ih =>
    cases r with
    | zero => cases r' with
      | zero => exact absurd rfl h
      | succ n' => rfl
    | succ n =>
      cases r' with
      | zero => rfl
      | succ n' =>
        simpa [listModify] using ih n n' (fun he => h (by rw [he]))

theorem listModify_listModify_self (l : List Mesh) (r : Nat) (f g : Mesh → Mesh) :
    listModify (listModify l r f) r g = listModify l r (fun m => g (f m)) := by
  induction l generalizing r with
  | nil => rfl
  | cons m t ih =>
    cases r with
    | zero => rfl
    | succ n => simpa [listModify] using ih n

theorem mapGet_mapSet_self (m : List (Int × Nat)) (k : Int) (v : Nat) :
    mapGet (mapSet m k v) k = some v := by
  induction m with
  | nil => simp [mapGet, mapSet]
  | cons p t ih =>
    by_cases h : p.1 = k
    · simp [mapGet, mapSet, h]
    · simp [mapGet, mapSet, h, ih]

theorem mapGet_mapSet_ne (m : List (Int × Nat)) (k k' : Int) (v : Nat)
    (h : k ≠ k') : mapGet (mapSet m k v) k' = mapGet m k' := by
  induction m with
  | nil => simp [mapGet, mapSet, h]
  | cons p t ih =>
    by_cases hp : p.1 = k
    · simp [mapGet, mapSet, hp, h]
    · simp only [mapSet, hp, if_false]
      by_cases hp' : p.1 = k'
      · simp [mapGet, hp']
      · simp [mapGet, hp', ih]

theorem mem_mapSet (m : List (Int × Nat)) (k : Int) (v : Nat) (p : Int × Nat)
    (hp : p ∈ mapSet m k v) : p = (k, v) ∨ p ∈ m := by
  induction m with
  | nil => simpa [mapSet] using hp
  | cons q t ih =>
    by_cases hq : q.1 = k
    · rcases (by simpa [mapSet, hq] using hp : p = (k, v) ∨ p ∈ t) with h | h
      · exact Or.inl h
      · exact Or.inr (List.mem_cons_of_mem q h)
    · rcases (by simpa [mapSet, hq] using hp : p = q ∨ p ∈ mapSet t k v) with h | h
      · exact Or.inr (by simp [h])
      · rcases ih h with h' | h'
        · exact Or.inl h'
        · exact Or.inr (List.mem_cons_of_mem q h')

theorem mapGet_eq_some_mem (m : List (Int × Nat)) (k : Int) (r : Nat)
    (h : mapGet m k = some r) : (k, r) ∈ m := by
  induction m with
  | nil => simp [mapGet] at h
  | cons p t ih =>
    by_cases hp : p.1 = k
    · have : p.2 = r := by simpa [mapGet, hp] using h
      have hpkr : p = (k, r) := by
        cases p; simp_all
      simp [hpkr]
    · exact List.mem_cons_of_mem p (ih (by simpa [mapGet, hp] using h))

theorem keys_mapSet_nodup (m : List (Int × Nat)) (k : Int) (v : Nat)
    (h : (m.map Prod.fst).Nodup) : ((mapSet m k v).map Prod.fst).Nodup := by
  induction m with
  | nil => simp [mapSet]
  | cons p t ih =>
    rw [List.map_cons, List.nodup_cons] at h
    by_cases hp : p.1 = k
    · have h1 : k ∉ t.map Prod.fst := hp ▸ h.1
      rw [show mapSet (p :: t) k v = (k, v) :: t by simp [mapSet, hp]]
      rw [List.map_cons, List.nodup_cons]
      exact ⟨h1, h.2⟩
    · have hk : ∀ q ∈ mapSet t k v, q.1 = k ∨ q.1 ∈ t.map Prod.fst := by
        intro q hq
        rcases mem_mapSet t k v q hq with h' | h'
        · exact Or.inl (by rw [h'])
        · exact Or.inr (List.mem_map_of_mem Prod.fst h')
      rw [mapSet, if_neg hp, List.map_cons, List.nodup_cons]
      refine ⟨?_, ih h.2⟩
      intro hmem
      rcases List.mem_map.mp hmem with ⟨q, hq, hq1⟩
      rcases hk q hq with h' | h'
      · exact hp (hq1 ▸ h')
      · exact h.1 (hq1 ▸ h')

theorem vals_mapSet_nodup (m : List (Int × Nat)) (k : Int) (v : Nat)
    (h : (m.map Prod.snd).Nodup) (hv : v ∉ m.map Prod.snd) :
    ((mapSet m k v).map Prod.snd).Nodup := by
  induction m with
  | nil => simp [mapSet]
  | cons p t ih =>
    rw [List.map_cons, List.nodup_cons] at h
    rw [List.map_cons] at hv
    have hvp : v ≠ p.2 := fun he => hv (by simp [he])
    have hvt : v ∉ t.map Prod.snd := fun he => hv (List.mem_cons_of_mem _ he)
    by_cases hp : p.1 = k
    · rw [show mapSet (p :: t) k v = (k, v) :: t by simp [mapSet, hp]]
      rw [List.map_cons, List.nodup_cons]
      exact ⟨hvt, h.2⟩
    · rw [mapSet, if_neg hp, List.map_cons, List.nodup_cons]
      refine ⟨?_, ih h.2 hvt⟩
      intro hmem
      rcases List.mem_map.mp hmem with ⟨q, hq, hq2⟩
      rcases mem_mapSet t k v q hq with h' | h'
      · exact hvp (by rw [← hq2, h'])
      · exact h.1 (hq2 ▸ List.mem_map_of_mem Prod.snd h')

theorem nodup_vals_inj {m : List (Int × Nat)} (h : (m.map Prod.snd).Nodup)
    {p q : Int × Nat} (hp : p ∈ m) (hq : q ∈ m) (he : p.2 = q.2) : p = q := by
  induction m with
  | nil => simp at hp
  | cons a t ih =>
    rw [List.map_cons, List.nodup_cons] at h
    rcases List.mem_cons.mp hp with hp' | hp' <;>
      rcases List.mem_cons.mp hq with hq' | hq'
    · rw [hp', hq']
    · exfalso
      apply h.1
      have hm : q.2 ∈ t.map Prod.snd := List.mem_map_of_mem Prod.snd hq'
      rwa [← he, hp'] at hm
    · exfalso
      apply h.1
      have hm : p.2 ∈ t.map Prod.snd := List.mem_map_of_mem Prod.snd hp'
      rwa [he, hq'] at hm
    · exact ih h.2 hp' hq'

/-! ### Frame lemmas for the controller operations -/

namespace SceneController

theorem meshAt_modifyAt_self (s : SceneController) (r : Nat) (f : Mesh → Mesh) :
    (s.modifyAt r f).meshAt r = (s.meshAt r).map f :=
  get?_listModify_self s.meshes r f

theorem meshAt_modifyAt_ne (s : SceneController) (r r' : Nat) (f : Mesh → Mesh)
    (h : r ≠ r') : (s.modifyAt r f).meshAt r' = s.meshAt r' :=
  get?_listModify_ne s.meshes r r' f h

theorem length_modifyAt (s : SceneController) (r : Nat) (f : Mesh → Mesh) :
    (s.modifyAt r f).meshes.length = s.meshes.length :=
  length_listModify s.meshes r f

theorem matOf_modifyAt_of_material_eq (s : SceneController) (r r' : Nat)
    (f : Mesh → Mesh) (hf : ∀ m, (f m).material = m.material) :
    (s.modifyAt r f).matOf r' = s.matOf r' := by
  by_cases h : r = r'
  · subst h
    rw [matOf, meshAt_modifyAt_self, matOf]
    cases s.meshAt r with
    | none => rfl
    | some m => simp [hf]
  · rw [matOf, meshAt_modifyAt_ne s r r' f h, matOf]

theorem sidOf_modifyAt_of_sid_eq (s : SceneController) (r r' : Nat)
    (f : Mesh → Mesh) (hf : ∀ m, (f m).sid = m.sid) :
    ((s.modifyAt r f).meshAt r').map Mesh.sid = (s.meshAt r').map Mesh.sid := by
  by_cases h : r = r'
  · subst h
    rw [meshAt_modifyAt_self]
    cases s.meshAt r with
    | none => rfl
    | some m => simp [hf]
  · rw [meshAt_modifyAt_ne s r r' f h]

theorem createEntity_fst_meshes (e : IEntity) (s : SceneController) :
    (createEntity e s).1.meshes = s.meshes ++
      [{ name := "sphere", sid := jsNumToString e.id, position := ⟨0, 0, 0⟩,
         enabled := true, material := Material.entityMat, isPickable := true }] := rfl

theorem createEntity_fst_entities (e : IEntity) (s : SceneController) :
    (createEntity e s).1.entities = mapSet s.entities e.id s.meshes.length := rfl

theorem createEntity_snd (e : IEntity) (s : SceneController) :
    (createEntity e s).2 = s.meshes.length := rfl

theorem meshAt_createEntity_lt (e : IEntity) (s : SceneController) (r : Nat)
    (h : r < s.meshes.length) : (createEntity e s).1.meshAt r = s.meshAt r := by
  rw [meshAt, createEntity_fst_meshes, List.get?_append h, meshAt]

theorem meshAt_createEntity_len (e : IEntity) (s : SceneController) :
    (createEntity e s).1.meshAt s.meshes.length =
      some { name := "sphere", sid := jsNumToString e.id, position := ⟨0, 0, 0⟩,
             enabled := true, material := Material.entityMat, isPickable := true } := by
  rw [meshAt, createEntity_fst_meshes, List.get?_concat_length]

theorem get?_disableRefs (l : List Mesh) (rs : List Nat) (r : Nat) :
    (disableRefs l rs).get? r =
      if r ∈ rs then (l.get? r).map (fun m => { m with enabled := false })
      else l.get? r := by
  induction rs generalizing l with
  | nil => simp [disableRefs]
  | cons r0 rest ih =>
    have hstep : disableRefs l (r0 :: rest) =
        disableRefs (listModify l r0 (fun m => { m with enabled := false })) rest := rfl
    rw [hstep, ih]
    by_cases hmem : r ∈ rest
    · rw [if_pos hmem, if_pos (List.mem_cons_of_mem r0 hmem)]
      by_cases he : r0 = r
      · subst he
        rw [get?_listModify_self]
        cases l.get? r0 with
        | none => rfl
        | some m => rfl
      · rw [get?_listModify_ne l r0 r _ he]
    · rw [if_neg hmem]
      by_cases he : r0 = r
      · subst he
        rw [if_pos (List.mem_cons_self r0 rest), get?_listModify_self]
      · have hnot : r ∉ r0 :: rest := by
          intro hc
          rcases List.mem_cons.mp hc with h1 | h1
          · exact he h1.symm
          · exact hmem h1
        rw [get?_listModify_ne l r0 r _ he, if_neg hnot]

theorem length_disableRefs (l : List Mesh) (rs : List Nat) :
    (disableRefs l rs).length = l.length := by
  induction rs generalizing l with
  | nil => rfl
  | cons r0 rest ih =>
    have hstep : disableRefs l (r0 :: rest) =
        disableRefs (listModify l r0 (fun m => { m with enabled := false })) rest := rfl
    rw [hstep, ih, length_listModify]

theorem meshAt_hideAllEntities (s : SceneController) (r : Nat) :
    (hideAllEntities s).meshAt r =
      if r ∈ s.entities.map Prod.snd then
        (s.meshAt r).map (fun m => { m with enabled := false })
      else s.meshAt r :=
  get?_disableRefs s.meshes (s.entities.map Prod.snd) r

theorem matOf_hideAllEntities (s : SceneController) (r : Nat) :
    (hideAllEntities s).matOf r = s.matOf r := by
  rw [matOf, meshAt_hideAllEntities, matOf]
  by_cases h : r ∈ s.entities.map Prod.snd
  · rw [if_pos h]
    cases s.meshAt r with
    | none => rfl
    | some m => rfl
  · rw [if_neg h]

theorem hideAllEntities_entities (s : SceneController) :
    (hideAllEntities s).entities = s.entities := rfl

theorem hideAllEntities_selected (s : SceneController) :
    (hideAllEntities s).selectedEntity = s.selectedEntity := rfl

theorem hideAllEntities_hovered (s : SceneController) :
    (hideAllEntities s).hoveredEntity = s.hoveredEntity := rfl

theorem length_hideAllEntities (s : SceneController) :
    (hideAllEntities s).meshes.length = s.meshes.length :=
  length_disableRefs s.meshes (s.entities.map Prod.snd)

theorem meshAt_eq_none (s : SceneController) (r : Nat) (h : s.meshes.length ≤ r) :
    s.meshAt r = none :=
  List.get?_eq_none.mpr h

theorem length_createEntity (e : IEntity) (s : SceneController) :
    (createEntity e s).1.meshes.length = s.meshes.length + 1 := by
  rw [createEntity_fst_meshes, List.length_append, List.length_singleton]

theorem matOf_modifyAt_setMat (s : SceneController) (r r' : Nat) (M : Material) :
    (s.modifyAt r (fun m => { m with material := M })).matOf r' =
      if r = r' then (s.matOf r').map (fun _ => M) else s.matOf r' := by
  by_cases h : r = r'
  · subst h
    rw [if_pos rfl, matOf, meshAt_modifyAt_self, matOf]
    cases s.meshAt r with
    | none => rfl
    | some m => rfl
  · rw [if_neg h, matOf, meshAt_modifyAt_ne s r r' _ h, matOf]

end SceneController

theorem Inv.get_lt {s : SceneController} (h : Inv s) {id : Int} {r : Nat}
    (hg : mapGet s.entities id = some r) : r < s.meshes.length :=
  h.refsValid _ (mapGet_eq_some_mem _ _ _ hg)

theorem Inv.get_inj {s : SceneController} (h : Inv s) {id1 id2 : Int} {r : Nat}
    (h1 : mapGet s.entities id1 = some r) (h2 : mapGet s.entities id2 = some r) :
    id1 = id2 := by
  have := nodup_vals_inj h.valsNodup (mapGet_eq_some_mem _ _ _ h1)
    (mapGet_eq_some_mem _ _ _ h2) rfl
  exact congrArg Prod.fst this

theorem inv_init : Inv SceneController.init := by
  refine ⟨?_, ?_, ?_, ?_, ?_, ?_, ?_⟩ <;> simp [SceneController.init, SceneController.matOf,
    SceneController.meshAt]

theorem inv_createEntity (e : IEntity) (s : SceneController) (h : Inv s) :
    Inv (createEntity e s).1 := by
  have hlen := length_createEntity e s
  refine ⟨?_, ?_, ?_, ?_, ?_, ?_, ?_⟩
  · intro p hp
    rw [createEntity_fst_entities] at hp
    rw [hlen]
    rcases mem_mapSet _ _ _ _ hp with h' | h'
    · rw [h']; omega
    · exact Nat.lt_succ_of_lt (h.refsValid p h')
  · intro r hr
    rw [hlen]
    exact Nat.lt_succ_of_lt (h.selValid r hr)
  · intro r hr
    rw [hlen]
    exact Nat.lt_succ_of_lt (h.hovValid r hr)
  · rw [createEntity_fst_entities]
    exact keys_mapSet_nodup _ _ _ h.keysNodup
  · rw [createEntity_fst_entities]
    refine vals_mapSet_nodup _ _ _ h.valsNodup ?_
    intro hmem
    rcases List.mem_map.mp hmem with ⟨p, hp, hp2⟩
    exact absurd (h.refsValid p hp) (by omega)
  · intro r hmat
    rcases lt_trichotomy r s.meshes.length with h' | h' | h'
    · rw [matOf, meshAt_createEntity_lt e s r h'] at hmat
      exact h.hovMat r hmat
    · subst h'
      rw [matOf, meshAt_createEntity_len] at hmat
      simp at hmat
    · rw [matOf, meshAt_eq_none _ _ (by omega)] at hmat
      simp at hmat
  · intro r hmat
    rcases lt_trichotomy r s.meshes.length with h' | h' | h'
    · rw [matOf, meshAt_createEntity_lt e s r h'] at hmat
      exact h.selMat r hmat
    · subst h'
      rw [matOf, meshAt_createEntity_len] at hmat
      simp at hmat
    · rw [matOf, meshAt_eq_none _ _ (by omega)] at hmat
      simp at hmat

theorem inv_modifyAt (s : SceneController) (r : Nat) (f : Mesh → Mesh)
    (h : Inv s) (hf : ∀ m, (f m).material = m.material) : Inv (s.modifyAt r f) := by
  refine ⟨?_, ?_, ?_, h.keysNodup, h.valsNodup, ?_, ?_⟩
  · intro p hp
    rw [length_modifyAt]
    exact h.refsValid p hp
  · intro r' hr'
    rw [length_modifyAt]
    exact h.selValid r' hr'
  · intro r' hr'
    rw [length_modifyAt]
    exact h.hovValid r' hr'
  · intro r' hmat
    rw [matOf_modifyAt_of_material_eq s r r' f hf] at hmat
    exact h.hovMat r' hmat
  · intro r' hmat
    rw [matOf_modifyAt_of_material_eq s r r' f hf] at hmat
    exact h.selMat r' hmat

theorem inv_setEntity (e : IEntity) (s : SceneController) (h : Inv s) :
    Inv (setEntity e s) := by
  unfold setEntity
  cases hg : mapGet s.entities e.id with
  | some r =>
    exact inv_modifyAt s r _ h (fun m => rfl)
  | none =>
    exact inv_modifyAt _ _ _ (inv_createEntity e s h) (fun m => rfl)

theorem inv_hideAllEntities (s : SceneController) (h : Inv s) :
    Inv (hideAllEntities s) := by
  refine ⟨?_, ?_, ?_, h.keysNodup, h.valsNodup, ?_, ?_⟩
  · intro p hp
    rw [length_hideAllEntities]
    exact h.refsValid p hp
  · intro r' hr'
    rw [length_hideAllEntities]
    exact h.selValid r' hr'
  · intro r' hr'
    rw [length_hideAllEntities]
    exact h.hovValid r' hr'
  · intro r' hmat
    rw [matOf_hideAllEntities] at hmat
    exact h.hovMat r' hmat
  · intro r' hmat
    rw [matOf_hideAllEntities] at hmat
    exact h.selMat r' hmat

/-! ### Observation lemmas for the selection and hover operations -/

theorem markEntityAsSelected_none (id : Int) (s : SceneController)
    (hg : mapGet s.entities id = none) : markEntityAsSelected id s = s := by
  simp [markEntityAsSelected, hg]

theorem markEntityAsSelected_def_some_some (id : Int) (s : SceneController)
    (r sr : Nat) (hg : mapGet s.entities id = some r)
    (hsel : s.selectedEntity = some sr) :
    markEntityAsSelected id s =
      { (s.modifyAt sr (fun m => { m with material := Material.entityMat })).modifyAt r
          (fun m => { m with material := Material.selectedMat }) with
        selectedEntity := some r } := by
  simp [markEntityAsSelected, hg, hsel]

theorem markEntityAsSelected_def_some_none (id : Int) (s : SceneController)
    (r : Nat) (hg : mapGet s.entities id = some r)
    (hsel : s.selectedEntity = none) :
    markEntityAsSelected id s =
      { s.modifyAt r (fun m => { m with material := Material.selectedMat }) with
        selectedEntity := some r } := by
  simp [markEntityAsSelected, hg, hsel]

theorem markEntityAsSelected_some_proj (id : Int) (s : SceneController)
    (r : Nat) (hg : mapGet s.entities id = some r) :
    (markEntityAsSelected id s).entities = s.entities ∧
    (markEntityAsSelected id s).selectedEntity = some r ∧
    (markEntityAsSelected id s).hoveredEntity = s.hoveredEntity ∧
    (markEntityAsSelected id s).meshes.length = s.meshes.length := by
  cases hsel : s.selectedEntity with
  | none =>
    rw [markEntityAsSelected_def_some_none id s r hg hsel]
    exact ⟨rfl, rfl, rfl, by
      show (listModify s.meshes r _).length = s.meshes.length
      rw [length_listModify]⟩
  | some sr =>
    rw [markEntityAsSelected_def_some_some id s r sr hg hsel]
    exact ⟨rfl, rfl, rfl, by
      show (listModify (listModify s.meshes sr _) r _).length = s.meshes.length
      rw [length_listModify, length_listModify]⟩

theorem matOf_markEntityAsSelected_some_some (id : Int) (s : SceneController)
    (r sr : Nat) (hg : mapGet s.entities id = some r)
    (hsel : s.selectedEntity = some sr) (r' : Nat) :
    (markEntityAsSelected id s).matOf r' =
      if r = r' then (s.matOf r').map (fun _ => Material.selectedMat)
      else if sr = r' then (s.matOf r').map (fun _ => Material.entityMat)
      else s.matOf r' := by
  rw [markEntityAsSelected_def_some_some id s r sr hg hsel]
  have h1 : ({ (s.modifyAt sr (fun m => { m with material := Material.entityMat })).modifyAt r
      (fun m => { m with material := Material.selectedMat }) with
      selectedEntity := some r }).matOf r' =
      ((s.modifyAt sr (fun m => { m with material := Material.entityMat })).modifyAt r
        (fun m => { m with material := Material.selectedMat })).matOf r' := rfl
  rw [h1, matOf_modifyAt_setMat, matOf_modifyAt_setMat]
  by_cases e1 : r = r'
  · rw [if_pos e1, if_pos e1]
    by_cases e2 : sr = r'
    · rw [if_pos e2]
      cases s.matOf r' with
      | none => rfl
      | some m => rfl
    · rw [if_neg e2]
  · rw [if_neg e1, if_neg e1]

theorem matOf_markEntityAsSelected_some_none (id : Int) (s : SceneController)
    (r : Nat) (hg : mapGet s.entities id = some r)
    (hsel : s.selectedEntity = none) (r' : Nat) :
    (markEntityAsSelected id s).matOf r' =
      if r = r' then (s.matOf r').map (fun _ => Material.selectedMat)
      else s.matOf r' := by
  rw [markEntityAsSelected_def_some_none id s r hg hsel]
  have h1 : ({ s.modifyAt r (fun m => { m with material := Material.selectedMat }) with
      selectedEntity := some r }).matOf r' =
      (s.modifyAt r (fun m => { m with material := Material.selectedMat })).matOf r' := rfl
  rw [h1, matOf_modifyAt_setMat]

theorem onEntityHovered_none (id : Int) (s : SceneController)
    (hg : mapGet s.entities id = none) : onEntityHovered id s = s := by
  simp [onEntityHovered, hg]

theorem onEntityHovered_def_hovnone (id : Int) (s : SceneController)
    (r : Nat) (hg : mapGet s.entities id = some r)
    (hhov : s.hoveredEntity = none) :
    onEntityHovered id s =
      { s.modifyAt r (fun m => { m with material := Material.hoveredMat }) with
        hoveredEntity := some r } := by
  simp [onEntityHovered, hg, hhov]

theorem onEntityHovered_def_hovsel (id : Int) (s : SceneController)
    (r hr : Nat) (hg : mapGet s.entities id = some r)
    (hhov : s.hoveredEntity = some hr) (hc : s.selectedEntity = some hr) :
    onEntityHovered id s =
      { (s.modifyAt hr (fun m => { m with material := Material.selectedMat })).modifyAt r
          (fun m => { m with material := Material.hoveredMat }) with
        hoveredEntity := some r } := by
  simp [onEntityHovered, hg, hhov, hc]

theorem onEntityHovered_def_hovother (id : Int) (s : SceneController)
    (r hr : Nat) (hg : mapGet s.entities id = some r)
    (hhov : s.hoveredEntity = some hr) (hc : ¬s.selectedEntity = some hr) :
    onEntityHovered id s =
      { (s.modifyAt hr (fun m => { m with material := Material.entityMat })).modifyAt r
          (fun m => { m with material := Material.hoveredMat }) with
        hoveredEntity := some r } := by
  simp [onEntityHovered, hg, hhov, hc]

theorem onEntityHovered_some_proj (id : Int) (s : SceneController)
    (r : Nat) (hg : mapGet s.entities id = some r) :
    (onEntityHovered id s).entities = s.entities ∧
    (onEntityHovered id s).selectedEntity = s.selectedEntity ∧
    (onEntityHovered id s).hoveredEntity = some r ∧
    (onEntityHovered id s).meshes.length = s.meshes.length := by
  cases hhov : s.hoveredEntity with
  | none =>
    rw [onEntityHovered_def_hovnone id s r hg hhov]
    exact ⟨rfl, rfl, rfl, by
      show (listModify s.meshes r _).length = s.meshes.length
      rw [length_listModify]⟩
  | some hr =>
    by_cases hc : s.selectedEntity = some hr
    · rw [onEntityHovered_def_hovsel id s r hr hg hhov hc]
      exact ⟨rfl, rfl, rfl, by
        show (listModify (listModify s.meshes hr _) r _).length = s.meshes.length
        rw [length_listModify, length_listModify]⟩
    · rw [onEntityHovered_def_hovother id s r hr hg hhov hc]
      exact ⟨rfl, rfl, rfl, by
        show (listModify (listModify s.meshes hr _) r _).length = s.meshes.length
        rw [length_listModify, length_listModify]⟩

theorem matOf_onEntityHovered_restore (id : Int) (s : SceneController)
    (r hr : Nat) (M : Material) (hg : mapGet s.entities id = some r)
    (hhov : s.hoveredEntity = some hr)
    (hdef : onEntityHovered id s =
      { (s.modifyAt hr (fun m => { m with material := M })).modifyAt r
          (fun m => { m with material := Material.hoveredMat }) with
        hoveredEntity := some r }) (r' : Nat) :
    (onEntityHovered id s).matOf r' =
      if r = r' then (s.matOf r').map (fun _ => Material.hoveredMat)
      else if hr = r' then (s.matOf r').map (fun _ => M)
      else s.matOf r' := by
  rw [hdef]
  have h1 : ({ (s.modifyAt hr (fun m => { m with material := M })).modifyAt r
      (fun m => { m with material := Material.hoveredMat }) with
      hoveredEntity := some r }).matOf r' =
      ((s.modifyAt hr (fun m => { m with material := M })).modifyAt r
        (fun m => { m with material := Material.hoveredMat })).matOf r' := rfl
  rw [h1, matOf_modifyAt_setMat, matOf_modifyAt_setMat]
  by_cases e1 : r = r'
  · rw [if_pos e1, if_pos e1]
    by_cases e2 : hr = r'
    · rw [if_pos e2]
      cases s.matOf r' with
      | none => rfl
      | some m => rfl
    · rw [if_neg e2]
  · rw [if_neg e1, if_neg e1]

theorem matOf_onEntityHovered_hovnone (id : Int) (s : SceneController)
    (r : Nat) (hg : mapGet s.entities id = some r)
    (hhov : s.hoveredEntity = none) (r' : Nat) :
    (onEntityHovered id s).matOf r' =
      if r = r' then (s.matOf r').map (fun _ => Material.hoveredMat)
      else s.matOf r' := by
  rw [onEntityHovered_def_hovnone id s r hg hhov]
  have h1 : ({ s.modifyAt r (fun m => { m with material := Material.hoveredMat }) with
      hoveredEntity := some r }).matOf r' =
      (s.modifyAt r (fun m => { m with material := Material.hoveredMat })).matOf r' := rfl
  rw [h1, matOf_modifyAt_setMat]

theorem onEntityStopHovered_def_none (s : SceneController)
    (hhov : s.hoveredEntity = none) :
    onEntityStopHovered s = { s with hoveredEntity := none } := by
  simp [onEntityStopHovered, hhov]

theorem onEntityStopHovered_def_sel (s : SceneController) (hr : Nat)
    (hhov : s.hoveredEntity = some hr) (hc : s.selectedEntity = some hr) :
    onEntityStopHovered s =
      { s.modifyAt hr (fun m => { m with material := Material.selectedMat }) with
        hoveredEntity := none } := by
  simp [onEntityStopHovered, hhov, hc]

theorem onEntityStopHovered_def_other (s : SceneController) (hr : Nat)
    (hhov : s.hoveredEntity = some hr) (hc : ¬s.selectedEntity = some hr) :
    onEntityStopHovered s =
      { s.modifyAt hr (fun m => { m with material := Material.entityMat }) with
        hoveredEntity := none } := by
  simp [onEntityStopHovered, hhov, hc]

theorem onEntityStopHovered_proj (s : SceneController) :
    (onEntityStopHovered s).entities = s.entities ∧
    (onEntityStopHovered s).selectedEntity = s.selectedEntity ∧
    (onEntityStopHovered s).hoveredEntity = none ∧
    (onEntityStopHovered s).meshes.length = s.meshes.length := by
  cases hhov : s.hoveredEntity with
  | none =>
    rw [onEntityStopHovered_def_none s hhov]
    exact ⟨rfl, rfl, rfl, rfl⟩
  | some hr =>
    by_cases hc : s.selectedEntity = some hr
    · rw [onEntityStopHovered_def_sel s hr hhov hc]
      exact ⟨rfl, rfl, rfl, by
        show (listModify s.meshes hr _).length = s.meshes.length
        rw [length_listModify]⟩
    · rw [onEntityStopHovered_def_other s hr hhov hc]
      exact ⟨rfl, rfl, rfl, by
        show (listModify s.meshes hr _).length = s.meshes.length
        rw [length_listModify]⟩

theorem matOf_onEntityStopHovered_some (s : SceneController) (hr : Nat)
    (M : Material) (hhov : s.hoveredEntity = some hr)
    (hdef : onEntityStopHovered s =
      { s.modifyAt hr (fun m => { m with material := M }) with
        hoveredEntity := none }) (r' : Nat) :
    (onEntityStopHovered s).matOf r' =
      if hr = r' then (s.matOf r').map (fun _ => M) else s.matOf r' := by
  rw [hdef]
  have h1 : ({ s.modifyAt hr (fun m => { m with material := M }) with
      hoveredEntity := none }).matOf r' =
      (s.modifyAt hr (fun m => { m with material := M })).matOf r' := rfl
  rw [h1, matOf_modifyAt_setMat]

/-! ### Invariant preservation for selection and hover -/

theorem inv_markEntityAsSelected (id : Int) (s : SceneController) (h : Inv s) :
    Inv (markEntityAsSelected id s) := by
  cases hg : mapGet s.entities id with
  | none => rw [markEntityAsSelected_none id s hg]; exact h
  | some r =>
    have hrlt : r < s.meshes.length := h.get_lt hg
    obtain ⟨he, hs, hh, hl⟩ := markEntityAsSelected_some_proj id s r hg
    have hmatOf : ∀ r', (markEntityAsSelected id s).matOf r' = some Material.hoveredMat →
        s.matOf r' = some Material.hoveredMat := by
      intro r' hmat
      cases hsel : s.selectedEntity with
      | none =>
        rw [matOf_markEntityAsSelected_some_none id s r hg hsel r'] at hmat
        by_cases e1 : r = r'
        · rw [if_pos e1] at hmat
          cases s.matOf r' <;> simp_all
        · rwa [if_neg e1] at hmat
      | some sr =>
        rw [matOf_markEntityAsSelected_some_some id s r sr hg hsel r'] at hmat
        by_cases e1 : r = r'
        · rw [if_pos e1] at hmat
          cases s.matOf r' <;> simp_all
        · rw [if_neg e1] at hmat
          by_cases e2 : sr = r'
          · rw [if_pos e2] at hmat
            cases s.matOf r' <;> simp_all
          · rwa [if_neg e2] at hmat
    refine ⟨?_, ?_, ?_, ?_, ?_, ?_, ?_⟩
    · intro p hp
      rw [he] at hp
      rw [hl]
      exact h.refsValid p hp
    · intro r' hr'
      rw [hs] at hr'
      rw [hl]
      cases hr'
      exact hrlt
    · intro r' hr'
      rw [hh] at hr'
      rw [hl]
      exact h.hovValid r' hr'
    · rw [he]; exact h.keysNodup
    · rw [he]; exact h.valsNodup
    · intro r' hmat
      rw [hh]
      exact h.hovMat r' (hmatOf r' hmat)
    · intro r' hmat
      rw [hs]
      cases hsel : s.selectedEntity with
      | none =>
        rw [matOf_markEntityAsSelected_some_none id s r hg hsel r'] at hmat
        by_cases e1 : r = r'
        · rw [e1]
        · exfalso
          rw [if_neg e1] at hmat
          have := h.selMat r' hmat
          rw [hsel] at this
          cases this
      | some sr =>
        rw [matOf_markEntityAsSelected_some_some id s r sr hg hsel r'] at hmat
        by_cases e1 : r = r'
        · rw [e1]
        · exfalso
          rw [if_neg e1] at hmat
          by_cases e2 : sr = r'
          · rw [if_pos e2] at hmat
            cases s.matOf r' <;> simp_all
          · rw [if_neg e2] at hmat
            have := h.selMat r' hmat
            rw [hsel] at this
            exact e2 (Option.some_injective _ this)

theorem inv_onEntityHovered (id : Int) (s : SceneController) (h : Inv s) :
    Inv (onEntityHovered id s) := by
  cases hg : mapGet s.entities id with
  | none => rw [onEntityHovered_none id s hg]; exact h
  | some r =>
    have hrlt : r < s.meshes.length := h.get_lt hg
    obtain ⟨he, hs, hh, hl⟩ := onEntityHovered_some_proj id s r hg
    have hchar : ∀ r', (onEntityHovered id s).matOf r' =
        if r = r' then (s.matOf r').map (fun _ => Material.hoveredMat)
        else (onEntityHovered id s).matOf r' := by
      intro r'
      by_cases e1 : r = r'
      · rw [if_pos e1]
        cases hhov : s.hoveredEntity with
        | none => rw [matOf_onEntityHovered_hovnone id s r hg hhov r', if_pos e1]
        | some hr =>
          by_cases hc : s.selectedEntity = some hr
          · rw [matOf_onEntityHovered_restore id s r hr Material.selectedMat hg hhov
              (onEntityHovered_def_hovsel id s r hr hg hhov hc) r', if_pos e1]
          · rw [matOf_onEntityHovered_restore id s r hr Material.entityMat hg hhov
              (onEntityHovered_def_hovother id s r hr hg hhov hc) r', if_pos e1]
      · rw [if_neg e1]
    refine ⟨?_, ?_, ?_, ?_, ?_, ?_, ?_⟩
    · intro p hp
      rw [he] at hp
      rw [hl]
      exact h.refsValid p hp
    · intro r' hr'
      rw [hs] at hr'
      rw [hl]
      exact h.selValid r' hr'
    · intro r' hr'
      rw [hh] at hr'
      rw [hl]
      cases hr'
      exact hrlt
    · rw [he]; exact h.keysNodup
    · rw [he]; exact h.valsNodup
    · intro r' hmat
      rw [hh]
      by_cases e1 : r = r'
      · rw [e1]
      · exfalso
        cases hhov : s.hoveredEntity with
        | none =>
          rw [matOf_onEntityHovered_hovnone id s r hg hhov r', if_neg e1] at hmat
          have := h.hovMat r' hmat
          rw [hhov] at this
          cases this
        | some hr =>
          by_cases hc : s.selectedEntity = some hr
          · rw [matOf_onEntityHovered_restore id s r hr Material.selectedMat hg hhov
              (onEntityHovered_def_hovsel id s r hr hg hhov hc) r', if_neg e1] at hmat
            by_cases e2 : hr = r'
            · rw [if_pos e2] at hmat
              cases s.matOf r' <;> simp_all
            · rw [if_neg e2] at hmat
              have := h.hovMat r' hmat
              rw [hhov] at this
              exact e2 (Option.some_injective _ this)
          · rw [matOf_onEntityHovered_restore id s r hr Material.entityMat hg hhov
              (onEntityHovered_def_hovother id s r hr hg hhov hc) r', if_neg e1] at hmat
            by_cases e2 : hr = r'
            · rw [if_pos e2] at hmat
              cases s.matOf r' <;> simp_all
            · rw [if_neg e2] at hmat
              have := h.hovMat r' hmat
              rw [hhov] at this
              exact e2 (Option.some_injective _ this)
    · intro r' hmat
      rw [hs]
      by_cases e1 : r = r'
      · exfalso
        rw [hchar r', if_pos e1] at hmat
        cases s.matOf r' <;> simp_all
      · cases hhov : s.hoveredEntity with
        | none =>
          rw [matOf_onEntityHovered_hovnone id s r hg hhov r', if_neg e1] at hmat
          exact h.selMat r' hmat
        | some hr =>
          by_cases hc : s.selectedEntity = some hr
          · rw [matOf_onEntityHovered_restore id s r hr Material.selectedMat hg hhov
              (onEntityHovered_def_hovsel id s r hr hg hhov hc) r', if_neg e1] at hmat
            by_cases e2 : hr = r'
            · rw [hc, e2]
            · rw [if_neg e2] at hmat
              exact h.selMat r' hmat
          · rw [matOf_onEntityHovered_restore id s r hr Material.entityMat hg hhov
              (onEntityHovered_def_hovother id s r hr hg hhov hc) r', if_neg e1] at hmat
            by_cases e2 : hr = r'
            · rw [if_pos e2] at hmat
              cases s.matOf r' <;> simp_all
            · rw [if_neg e2] at hmat
              exact h.selMat r' hmat

theorem inv_onEntityStopHovered (s : SceneController) (h : Inv s) :
    Inv (onEntityStopHovered s) := by
  obtain ⟨he, hs, hh, hl⟩ := onEntityStopHovered_proj s
  have hmatOf : ∀ r', (onEntityStopHovered s).matOf r' = some Material.hoveredMat →
      False := by
    intro r' hmat
    cases hhov : s.hoveredEntity with
    | none =>
      rw [onEntityStopHovered_def_none s hhov] at hmat
      have : s.matOf r' = some Material.hoveredMat := hmat
      have h2 := h.hovMat r' this
      rw [hhov] at h2
      cases h2
    | some hr =>
      by_cases hc : s.selectedEntity = some hr
      · rw [matOf_onEntityStopHovered_some s hr Material.selectedMat hhov
          (onEntityStopHovered_def_sel s hr hhov hc) r'] at hmat
        by_cases e2 : hr = r'
        · rw [if_pos e2] at hmat
          cases s.matOf r' <;> simp_all
        · rw [if_neg e2] at hmat
          have h2 := h.hovMat r' hmat
          rw [hhov] at h2
          exact e2 (Option.some_injective _ h2)
      · rw [matOf_onEntityStopHovered_some s hr Material.entityMat hhov
          (onEntityStopHovered_def_other s hr hhov hc) r'] at hmat
        by_cases e2 : hr = r'
        · rw [if_pos e2] at hmat
          cases s.matOf r' <;> simp_all
        · rw [if_neg e2] at hmat
          have h2 := h.hovMat r' hmat
          rw [hhov] at h2
          exact e2 (Option.some_injective _ h2)
  refine ⟨?_, ?_, ?_, ?_, ?_, ?_, ?_⟩
  · intro p hp
    rw [he] at hp
    rw [hl]
    exact h.refsValid p hp
  · intro r' hr'
    rw [hs] at hr'
    rw [hl]
    exact h.selValid r' hr'
  · intro r' hr'
    rw [hh] at hr'
    cases hr'
  · rw [he]; exact h.keysNodup
  · rw [he]; exact h.valsNodup
  · intro r' hmat
    exact absurd hmat (fun hm => hmatOf r' hm)
  · intro r' hmat
    rw [hs]
    cases hhov : s.hoveredEntity with
    | none =>
      rw [onEntityStopHovered_def_none s hhov] at hmat
      exact h.selMat r' hmat
    | some hr =>
      by_cases hc : s.selectedEntity = some hr
      · rw [matOf_onEntityStopHovered_some s hr Material.selectedMat hhov
          (onEntityStopHovered_def_sel s hr hhov hc) r'] at hmat
        by_cases e2 : hr = r'
        · rw [hc, e2]
        · rw [if_neg e2] at hmat
          exact h.selMat r' hmat
      · rw [matOf_onEntityStopHovered_some s hr Material.entityMat hhov
          (onEntityStopHovered_def_other s hr hhov hc) r'] at hmat
        by_cases e2 : hr = r'
        · rw [if_pos e2] at hmat
          cases s.matOf r' <;> simp_all
        · rw [if_neg e2] at hmat
          exact h.selMat r' hmat

theorem inv_step (s : SceneController) (op : Op) (h : Inv s) : Inv (step s op) := by
  cases op with
  | create e => exact inv_createEntity e s h
  | set e => exact inv_setEntity e s h
  | hideAll => exact inv_hideAllEntities s h
  | select id => exact inv_markEntityAsSelected id s h
  | hover id => exact inv_onEntityHovered id s h
  | stopHover => exact inv_onEntityStopHovered s h

theorem inv_foldl (ops : List Op) : ∀ s : SceneController, Inv s →
    Inv (ops.foldl step s) := by
  induction ops with
  | nil => intro s h; exact h
  | cons op rest ih =>
    intro s h
    exact ih (step s op) (inv_step s op h)

theorem inv_run (ops : List Op) : Inv (run ops) :=
  inv_foldl ops SceneController.init inv_init

theorem reachable_inv {s : SceneController} (h : Reachable s) : Inv s := by
  obtain ⟨ops, hops⟩ := h
  exact hops ▸ inv_run ops

theorem reachable_init : Reachable SceneController.init := ⟨[], rfl⟩

theorem reachable_step {s : SceneController} (op : Op) (h : Reachable s) :
    Reachable (step s op) := by
  obtain ⟨ops, hops⟩ := h
  exact ⟨ops ++ [op], by rw [run, List.foldl_append, ← run, hops]; rfl⟩

/-! ### Observation lemmas for `setEntity` and update passes -/

theorem setEntity_some (e : IEntity) (s : SceneController) (r : Nat)
    (hg : mapGet s.entities e.id = some r) :
    setEntity e s =
      s.modifyAt r (fun m => { m with position := getEntityPosition e, enabled := true }) := by
  simp [setEntity, hg]

theorem setEntity_none (e : IEntity) (s : SceneController)
    (hg : mapGet s.entities e.id = none) :
    setEntity e s =
      (createEntity e s).1.modifyAt s.meshes.length
        (fun m => { m with position := getEntityPosition e, enabled := true }) := by
  simp [setEntity, hg, createEntity_snd]

theorem setEntity_sel (e : IEntity) (s : SceneController) :
    (setEntity e s).selectedEntity = s.selectedEntity := by
  cases hg : mapGet s.entities e.id with
  | some r => rw [setEntity_some e s r hg]; rfl
  | none => rw [setEntity_none e s hg]; rfl

theorem setEntity_hov (e : IEntity) (s : SceneController) :
    (setEntity e s).hoveredEntity = s.hoveredEntity := by
  cases hg : mapGet s.entities e.id with
  | some r => rw [setEntity_some e s r hg]; rfl
  | none => rw [setEntity_none e s hg]; rfl

theorem length_le_setEntity (e : IEntity) (s : SceneController) :
    s.meshes.length ≤ (setEntity e s).meshes.length := by
  cases hg : mapGet s.entities e.id with
  | some r =>
    rw [setEntity_some e s r hg, length_modifyAt]
  | none =>
    rw [setEntity_none e s hg, length_modifyAt, length_createEntity]
    omega

theorem matOf_setEntity (e : IEntity) (s : SceneController) (r : Nat)
    (hr : r < s.meshes.length) : (setEntity e s).matOf r = s.matOf r := by
  cases hg : mapGet s.entities e.id with
  | some r0 =>
    rw [setEntity_some e s r0 hg, matOf_modifyAt_of_material_eq s r0 r
      (fun m => { m with position := getEntityPosition e, enabled := true }) (fun m => rfl)]
  | none =>
    rw [setEntity_none e s hg, matOf_modifyAt_of_material_eq (createEntity e s).1
      s.meshes.length r
      (fun m => { m with position := getEntityPosition e, enabled := true }) (fun m => rfl),
      SceneController.matOf, meshAt_createEntity_lt e s r hr, SceneController.matOf]

theorem sid_setEntity (e : IEntity) (s : SceneController) (r : Nat)
    (hr : r < s.meshes.length) :
    ((setEntity e s).meshAt r).map Mesh.sid = (s.meshAt r).map Mesh.sid := by
  cases hg : mapGet s.entities e.id with
  | some r0 =>
    rw [setEntity_some e s r0 hg, sidOf_modifyAt_of_sid_eq s r0 r
      (fun m => { m with position := getEntityPosition e, enabled := true }) (fun m => rfl)]
  | none =>
    rw [setEntity_none e s hg, sidOf_modifyAt_of_sid_eq (createEntity e s).1
      s.meshes.length r
      (fun m => { m with position := getEntityPosition e, enabled := true }) (fun m => rfl),
      meshAt_createEntity_lt e s r hr]

theorem mapGet_setEntity_ne (e : IEntity) (s : SceneController) (id : Int)
    (hne : id ≠ e.id) :
    mapGet (setEntity e s).entities id = mapGet s.entities id := by
  cases hg : mapGet s.entities e.id with
  | some r =>
    rw [setEntity_some e s r hg]
    rfl
  | none =>
    rw [setEntity_none e s hg]
    show mapGet (mapSet s.entities e.id s.meshes.length) id = mapGet s.entities id
    exact mapGet_mapSet_ne _ _ _ _ (fun h => hne h.symm)

theorem enabledOf_modifyAt_self (s : SceneController) (r : Nat) (f : Mesh → Mesh) :
    (s.modifyAt r f).enabledOf r = (s.meshAt r).map (fun m => (f m).enabled) := by
  rw [SceneController.enabledOf, meshAt_modifyAt_self]
  cases s.meshAt r with
  | none => rfl
  | some m => rfl

theorem enabled_setEntity_self (e : IEntity) (s : SceneController) (h : Inv s)
    (r : Nat) (hget : mapGet (setEntity e s).entities e.id = some r) :
    (setEntity e s).enabledOf r = some true := by
  cases hg : mapGet s.entities e.id with
  | some r0 =>
    have hr : r = r0 := by
      rw [setEntity_some e s r0 hg] at hget
      have : mapGet s.entities e.id = some r := hget
      rw [hg] at this
      exact (Option.some_injective _ this).symm
    subst hr
    have hlt : r < s.meshes.length := h.get_lt hg
    rw [setEntity_some e s r hg, enabledOf_modifyAt_self]
    cases hmm : s.meshAt r with
    | none => exact absurd (List.get?_eq_none.mp hmm) (by omega)
    | some m => rfl
  | none =>
    have hr : r = s.meshes.length := by
      rw [setEntity_none e s hg] at hget
      have : mapGet (mapSet s.entities e.id s.meshes.length) e.id = some r := hget
      rw [mapGet_mapSet_self] at this
      exact (Option.some_injective _ this).symm
    subst hr
    rw [setEntity_none e s hg, enabledOf_modifyAt_self, meshAt_createEntity_len]
    rfl

theorem setEntity_frame_other (e : IEntity) (s : SceneController) (id : Int)
    (r : Nat) (h : Inv s) (hne : id ≠ e.id)
    (hget : mapGet s.entities id = some r) :
    mapGet (setEntity e s).entities id = some r ∧
    (setEntity e s).meshAt r = s.meshAt r := by
  refine ⟨by rw [mapGet_setEntity_ne e s id hne]; exact hget, ?_⟩
  cases hg : mapGet s.entities e.id with
  | some rt =>
    have hrne : rt ≠ r := fun hrr => hne (h.get_inj hget (hrr ▸ hg))
    rw [setEntity_some e s rt hg, meshAt_modifyAt_ne _ _ _ _ hrne]
  | none =>
    have hrl : r < s.meshes.length := h.get_lt hget
    rw [setEntity_none e s hg, meshAt_modifyAt_ne _ _ _ _ (by omega),
      meshAt_createEntity_lt e s r hrl]

theorem inv_runSets (es : List IEntity) : ∀ s : SceneController, Inv s →
    Inv (runSets s es) := by
  induction es with
  | nil => intro s h; exact h
  | cons e t ih =>
    intro s h
    exact ih (setEntity e s) (inv_setEntity e s h)

theorem runSets_enabled (es : List IEntity) : ∀ (s : SceneController)
    (Q : Int → Prop), Inv s →
    (∀ id r, mapGet s.entities id = some r → (s.enabledOf r = some true ↔ Q id)) →
    ∀ id r, mapGet (runSets s es).entities id = some r →
      ((runSets s es).enabledOf r = some true ↔ (Q id ∨ id ∈ es.map IEntity.id)) := by
  induction es with
  | nil =>
    intro s Q hInv hbase id r hget
    exact (hbase id r hget).trans (by simp)
  | cons e t ih =>
    intro s Q hInv hbase id r hget
    have hstep : runSets s (e :: t) = runSets (setEntity e s) t := rfl
    rw [hstep] at hget
    rw [hstep]
    have hbase' : ∀ id r, mapGet (setEntity e s).entities id = some r →
        ((setEntity e s).enabledOf r = some true ↔ (Q id ∨ id = e.id)) := by
      intro id2 r2 hget2
      by_cases hid : id2 = e.id
      · subst hid
        have hen := enabled_setEntity_self e s hInv r2 hget2
        simp [hen]
      · have hgs : mapGet s.entities id2 = some r2 := by
          rw [mapGet_setEntity_ne e s id2 hid] at hget2
          exact hget2
        have hmesh := (setEntity_frame_other e s id2 r2 hInv hid hgs).2
        rw [SceneController.enabledOf, hmesh, ← SceneController.enabledOf]
        rw [hbase id2 r2 hgs]
        simp [hid]
    have hmain := ih (setEntity e s) (fun id => Q id ∨ id = e.id)
      (inv_setEntity e s hInv) hbase' id r hget
    rw [hmain]
    simp [List.mem_cons, or_assoc]

theorem hideAll_enabled (s : SceneController) (h : Inv s) :
    ∀ id r, mapGet (hideAllEntities s).entities id = some r →
      (hideAllEntities s).enabledOf r = some false := by
  intro id r hget
  rw [hideAllEntities_entities] at hget
  have hmem : (id, r) ∈ s.entities := mapGet_eq_some_mem _ _ _ hget
  have hrv : r ∈ s.entities.map Prod.snd := List.mem_map_of_mem Prod.snd hmem
  have hrl : r < s.meshes.length := h.refsValid _ hmem
  rw [SceneController.enabledOf, meshAt_hideAllEntities, if_pos hrv]
  cases hmm : s.meshAt r with
  | none => exact absurd (List.get?_eq_none.mp hmm) (by omega)
  | some m => rfl

theorem modifyAt_idem (s : SceneController) (r : Nat) (f : Mesh → Mesh)
    (hf : ∀ m, f (f m) = f m) :
    (s.modifyAt r f).modifyAt r f = s.modifyAt r f := by
  have hm : listModify (listModify s.meshes r f) r f = listModify s.meshes r f := by
    rw [listModify_listModify_self]
    congr 1
    funext m
    exact hf m
  show ({ s with meshes := listModify (listModify s.meshes r f) r f } : SceneController) =
    { s with meshes := listModify s.meshes r f }
  rw [hm]

/-! ### The stamped identifier round-trips through parseInt -/

theorem digitsRev_lt (fuel : Nat) : ∀ n d, d ∈ digitsRev fuel n → d < 10 := by
  induction fuel with
  | zero => intro n d hd; simp [digitsRev] at hd
  | succ fuel ih =>
    intro n d hd
    by_cases hn : n = 0
    · simp [digitsRev, hn] at hd
    · rw [digitsRev, if_neg hn] at hd
      rcases List.mem_cons.mp hd with h | h
      · rw [h]; exact Nat.mod_lt _ (by omega)
      · exact ih _ d h

theorem foldl_digitsRev (fuel : Nat) : ∀ n a, n ≤ fuel →
    ((digitsRev fuel n).reverse).foldl (fun x d => x * 10 + d) a =
      a * 10 ^ (digitsRev fuel n).length + n := by
  induction fuel with
  | zero =>
    intro n a hn
    have : n = 0 := by omega
    simp [digitsRev, this]
  | succ fuel ih =>
    intro n a hn
    by_cases hn0 : n = 0
    · simp [digitsRev, hn0]
    · rw [digitsRev, if_neg hn0, List.reverse_cons, List.foldl_append]
      have hdiv : n / 10 ≤ fuel := by
        have := Nat.div_lt_self (Nat.pos_of_ne_zero hn0) (by omega : 1 < 10)
        omega
      rw [ih (n / 10) a hdiv]
      show (a * 10 ^ (digitsRev fuel (n / 10)).length + n / 10) * 10 + n % 10 =
        a * 10 ^ ((n % 10 :: digitsRev fuel (n / 10)).length) + n
      rw [List.length_cons, pow_succ]
      have hK : a * (10 ^ (digitsRev fuel (n / 10)).length * 10) =
          a * 10 ^ (digitsRev fuel (n / 10)).length * 10 := by ring
      rw [hK]
      generalize a * 10 ^ (digitsRev fuel (n / 10)).length = K
      omega

theorem parseDigit_digitChar (d : Nat) (h : d < 10) :
    parseDigit (Nat.digitChar d) = some d := by
  interval_cases d <;> rfl

theorem parseDigit_ne_minus (c : Char) (d : Nat) (h : parseDigit c = some d) :
    c ≠ '-' := by
  intro he
  rw [he] at h
  simp [parseDigit] at h

theorem parseFold (ds : List Nat) : ∀ a, (∀ d ∈ ds, d < 10) →
    (ds.map Nat.digitChar).foldl parseStep (some a) =
      some (ds.foldl (fun x d => x * 10 + d) a) := by
  induction ds with
  | nil => intro a h; rfl
  | cons d t ih =>
    intro a h
    have hd : d < 10 := h d (List.mem_cons_self d t)
    have hstep : parseStep (some a) (Nat.digitChar d) = some (a * 10 + d) := by
      simp [parseStep, parseDigit_digitChar d hd]
    rw [List.map_cons, List.foldl_cons, hstep, List.foldl_cons]
    exact ih (a * 10 + d) (fun d' hd' => h d' (List.mem_cons_of_mem d hd'))

theorem parseNatChars_natDigitChars (m : Nat) :
    parseNatChars (natDigitChars m) = some m := by
  by_cases hm : m = 0
  · subst hm; rfl
  · rw [natDigitChars, if_neg hm]
    have hne : digitsRev m m ≠ [] := by
      cases m with
      | zero => exact absurd rfl hm
      | succ k =>
        rw [digitsRev, if_neg hm]
        exact List.cons_ne_nil _ _
    have hne2 : ((digitsRev m m).reverse).map Nat.digitChar ≠ [] := by
      intro hc
      rw [List.map_eq_nil, List.reverse_eq_nil_iff] at hc
      exact hne hc
    rw [parseNatChars, if_neg hne2]
    have hbound : ∀ d ∈ (digitsRev m m).reverse, d < 10 := by
      intro d hd
      exact digitsRev_lt m m d (List.mem_reverse.mp hd)
    rw [parseFold _ 0 hbound, foldl_digitsRev m m 0 le_rfl]
    simp

theorem natDigitChars_cons (m : Nat) :
    ∃ c cs, natDigitChars m = c :: cs ∧ c ≠ '-' := by
  by_cases hm : m = 0
  · exact ⟨'0', [], by simp [natDigitChars, hm], by decide⟩
  · have hne : digitsRev m m ≠ [] := by
      cases m with
      | zero => exact absurd rfl hm
      | succ k =>
        rw [digitsRev, if_neg hm]
        exact List.cons_ne_nil _ _
    rcases hrev : (digitsRev m m).reverse with _ | ⟨d, ds⟩
    · exact absurd (List.reverse_eq_nil_iff.mp hrev) hne
    · have hd : d < 10 := by
        have : d ∈ (digitsRev m m).reverse := by rw [hrev]; exact List.mem_cons_self d ds
        exact digitsRev_lt m m d (List.mem_reverse.mp this)
      refine ⟨Nat.digitChar d, ds.map Nat.digitChar, ?_, ?_⟩
      · rw [natDigitChars, if_neg hm, hrev, List.map_cons]
      · exact parseDigit_ne_minus _ d (parseDigit_digitChar d hd)

theorem parseIntJS_jsNumToString (n : Int) :
    parseIntJS (jsNumToString n) = some n := by
  by_cases hn : n < 0
  · rw [jsNumToString, if_pos hn]
    show (parseNatChars (natDigitChars n.natAbs)).map (fun m : Nat => -(m : Int)) = some n
    rw [parseNatChars_natDigitChars]
    show some (-(n.natAbs : Int)) = some n
    congr 1
    omega
  · rw [jsNumToString, if_neg hn]
    obtain ⟨c, cs, hcons, hc⟩ := natDigitChars_cons n.natAbs
    rw [hcons]
    show parseIntJS (String.mk (c :: cs)) = some n
    rw [show parseIntJS (String.mk (c :: cs)) =
        if c = '-' then (parseNatChars cs).map (fun m : Nat => -(m : Int))
        else (parseNatChars (c :: cs)).map (fun m : Nat => (m : Int)) from rfl]
    rw [if_neg hc, ← hcons, parseNatChars_natDigitChars]
    show some ((n.natAbs : Int)) = some n
    congr 1
    omega

theorem matOf_isSome (s : SceneController) (r : Nat) (h : r < s.meshes.length) :
    ∃ M, s.matOf r = some M := by
  cases hmm : s.meshAt r with
  | none => exact absurd (List.get?_eq_none.mp hmm) (by omega)
  | some m => exact ⟨m.material, by rw [SceneController.matOf, hmm]; rfl⟩

theorem matOf_runSets (S : List IEntity) : ∀ (s : SceneController) (r : Nat),
    r < s.meshes.length → (runSets s S).matOf r = s.matOf r := by
  induction S with
  | nil => intro s r h; rfl
  | cons e t ih =>
    intro s r h
    have hstep : runSets s (e :: t) = runSets (setEntity e s) t := rfl
    rw [hstep, ih (setEntity e s) r (lt_of_lt_of_le h (length_le_setEntity e s)),
      matOf_setEntity e s r h]

/-! ### The claims -/

/-- Claim C3 (confirmed). Stop-hover selection precedence: in every
reachable state in which the same mesh is both the currently selected and
the currently hovered mesh, `onEntityStopHovered` sets that mesh's material
to the selected material (never the default) and clears the hover
back-reference. -/
theorem C3_stop_hover_selected (s : SceneController) (r : Nat)
    (hreach : Reachable s) (hsel : s.selectedEntity = some r)
    (hhov : s.hoveredEntity = some r) :
    (onEntityStopHovered s).matOf r = some Material.selectedMat ∧
    (onEntityStopHovered s).hoveredEntity = none := by
  have hInv := reachable_inv hreach
  have hlt : r < s.meshes.length := hInv.hovValid r hhov
  refine ⟨?_, (onEntityStopHovered_proj s).2.2.1⟩
  rw [matOf_onEntityStopHovered_some s r Material.selectedMat hhov
    (onEntityStopHovered_def_sel s r hhov hsel) r, if_pos rfl]
  obtain ⟨M, hM⟩ := matOf_isSome s r hlt
  rw [hM]
  rfl

theorem C3_witness :
    (run [Op.set ⟨1, ⟨0, 0, 0⟩⟩, Op.select 1, Op.hover 1]).selectedEntity = some 0 ∧
    (run [Op.set ⟨1, ⟨0, 0, 0⟩⟩, Op.select 1, Op.hover 1]).hoveredEntity = some 0 ∧
    ((onEntityStopHovered
        (run [Op.set ⟨1, ⟨0, 0, 0⟩⟩, Op.select 1, Op.hover 1])).matOf 0 =
      some Material.selectedMat ∧
     (onEntityStopHovered
        (run [Op.set ⟨1, ⟨0, 0, 0⟩⟩, Op.select 1, Op.hover 1])).hoveredEntity = none) :=
  ⟨by decide, by decide,
    C3_stop_hover_selected (run [Op.set ⟨1, ⟨0, 0, 0⟩⟩, Op.select 1, Op.hover 1]) 0
      ⟨[Op.set ⟨1, ⟨0, 0, 0⟩⟩, Op.select 1, Op.hover 1], rfl⟩ (by decide) (by decide)⟩

/-- Claim C5 (confirmed). Unknown-id no-op: for every entity id that has no
mesh in the entity map, `markEntityAsSelected` and `onEntityHovered` leave
the whole controller state unchanged (the operations are total, so no
exception is raised). -/
theorem C5_unknown_id_noop (s : SceneController) (id : Int)
    (h : mapGet s.entities id = none) :
    markEntityAsSelected id s = s ∧ onEntityHovered id s = s :=
  ⟨markEntityAsSelected_none id s h, onEntityHovered_none id s h⟩

theorem C5_witness :
    mapGet (run [Op.set ⟨1, ⟨0, 0, 0⟩⟩]).entities 42 = none ∧
    (markEntityAsSelected 42 (run [Op.set ⟨1, ⟨0, 0, 0⟩⟩]) =
        run [Op.set ⟨1, ⟨0, 0, 0⟩⟩] ∧
      onEntityHovered 42 (run [Op.set ⟨1, ⟨0, 0, 0⟩⟩]) =
        run [Op.set ⟨1, ⟨0, 0, 0⟩⟩]) :=
  ⟨by decide, C5_unknown_id_noop (run [Op.set ⟨1, ⟨0, 0, 0⟩⟩]) 42 (by decide)⟩

/-- Claim C8 (confirmed). `setEntity` idempotence: calling `setEntity` twice
with the same entity yields exactly the state of calling it once (same mesh
positions and enabled flags, same entity map). -/
theorem C8_setEntity_idempotent (e : IEntity) (s : SceneController) :
    setEntity e (setEntity e s) = setEntity e s := by
  cases hg : mapGet s.entities e.id with
  | some r =>
    have h1 := setEntity_some e s r hg
    have h2 : mapGet (setEntity e s).entities e.id = some r := by
      rw [h1]; exact hg
    rw [setEntity_some e (setEntity e s) r h2, h1, modifyAt_idem]
    intro m
    rfl
  | none =>
    have h1 := setEntity_none e s hg
    have h2 : mapGet (setEntity e s).entities e.id = some s.meshes.length := by
      rw [h1]
      show mapGet (mapSet s.entities e.id s.meshes.length) e.id =
        some s.meshes.length
      exact mapGet_mapSet_self _ _ _
    rw [setEntity_some e (setEntity e s) s.meshes.length h2, h1, modifyAt_idem]
    intro m
    rfl

/-- Claim C9 (confirmed). Pointer-down id round-trip and decoupling: the
mesh created for an entity is stamped with the decimal string of its id;
parsing that string back yields exactly the id; and the pointer-down
handler, on a hit against that mesh, emits the `onEntitySelected` callback
argument equal to the id while returning the controller state unchanged. -/
theorem C9_pointer_roundtrip (e : IEntity) (s : SceneController) :
    ((createEntity e s).1.meshAt (createEntity e s).2).map Mesh.sid =
      some (jsNumToString e.id) ∧
    parseIntJS (jsNumToString e.id) = some e.id ∧
    onPointerDown (createEntity e s).1
      { hit := true, pickedMeshId := jsNumToString e.id } =
      ((createEntity e s).1, some (some e.id)) := by
  refine ⟨?_, parseIntJS_jsNumToString e.id, ?_⟩
  · rw [createEntity_snd, meshAt_createEntity_len]
    rfl
  · rw [onPointerDown]
    simp [parseIntJS_jsNumToString]

/-- Claim C6 (confirmed). Hide-then-show diffing: after any sequence of
`setEntity` calls followed by `hideAllEntities`, every mapped mesh is
disabled; calling `setEntity` for a subset S of the tracked ids then leaves
a mapped mesh enabled exactly when its id occurs in S. -/
theorem C6_hide_then_show (es S : List IEntity)
    (hsub : ∀ e ∈ S, (mapGet (run (es.map Op.set)).entities e.id).isSome = true) :
    (∀ id r,
      mapGet (hideAllEntities (run (es.map Op.set))).entities id = some r →
      (hideAllEntities (run (es.map Op.set))).enabledOf r = some false) ∧
    (∀ id r,
      mapGet (runSets (hideAllEntities (run (es.map Op.set))) S).entities id = some r →
      ((runSets (hideAllEntities (run (es.map Op.set))) S).enabledOf r = some true ↔
        id ∈ S.map IEntity.id)) := by
  have hInv : Inv (run (es.map Op.set)) := inv_run _
  have hInv2 : Inv (hideAllEntities (run (es.map Op.set))) :=
    inv_hideAllEntities _ hInv
  refine ⟨hideAll_enabled _ hInv, ?_⟩
  intro id r hget
  have hbase : ∀ id r,
      mapGet (hideAllEntities (run (es.map Op.set))).entities id = some r →
      ((hideAllEntities (run (es.map Op.set))).enabledOf r = some true ↔ False) := by
    intro id2 r2 hget2
    rw [hideAll_enabled _ hInv id2 r2 hget2]
    simp
  have hmain := runSets_enabled S _ (fun _ => False) hInv2 hbase id r hget
  rw [hmain]
  simp

theorem C6_witness :
    (hideAllEntities
        (run ([(⟨1, ⟨0, 0, 0⟩⟩ : IEntity), ⟨2, ⟨1, 0, 0⟩⟩].map Op.set))).enabledOf 0 =
      some false ∧
    ((runSets
        (hideAllEntities
          (run ([(⟨1, ⟨0, 0, 0⟩⟩ : IEntity), ⟨2, ⟨1, 0, 0⟩⟩].map Op.set)))
        [⟨2, ⟨1, 0, 0⟩⟩]).enabledOf 0 = some true ↔
      (1 : Int) ∈ ([(⟨2, ⟨1, 0, 0⟩⟩ : IEntity)].map IEntity.id)) := by
  have h := C6_hide_then_show [⟨1, ⟨0, 0, 0⟩⟩, ⟨2, ⟨1, 0, 0⟩⟩] [⟨2, ⟨1, 0, 0⟩⟩]
    (by decide)
  exact ⟨h.1 1 0 (by decide), h.2 1 0 (by decide)⟩

/-- Claim C1 as stated is false: after selecting entity 1 and then hovering
entity 1, mesh 0 is simultaneously the selected and the hovered mesh but
displays the hover material, not the selected material. -/
theorem C1_counterexample :
    (run [Op.set ⟨1, ⟨0, 0, 0⟩⟩, Op.select 1, Op.hover 1]).selectedEntity = some 0 ∧
    (run [Op.set ⟨1, ⟨0, 0, 0⟩⟩, Op.select 1, Op.hover 1]).hoveredEntity = some 0 ∧
    (run [Op.set ⟨1, ⟨0, 0, 0⟩⟩, Op.select 1, Op.hover 1]).matOf 0 =
      some Material.hoveredMat ∧
    Material.hoveredMat ≠ Material.selectedMat := by decide

/-- Claim C1 (amended). Material-state invariant: in every reachable state,
the hover material is displayed only by the mesh the hover back-reference
designates and the selected material only by the mesh the selection
back-reference designates (so the three states are mutually exclusive
across meshes); a mesh that is simultaneously selected and hovered may
display the hover material, selection taking precedence when hover is
restored; and `markEntityAsSelected` restores the previously selected mesh
to the default material, also when that mesh is currently the hovered
mesh. -/
theorem C1_material_invariant (s : SceneController) (hreach : Reachable s) :
    (∀ r, s.matOf r = some Material.hoveredMat → s.hoveredEntity = some r) ∧
    (∀ r, s.matOf r = some Material.selectedMat → s.selectedEntity = some r) ∧
    (∀ id r r0, mapGet s.entities id = some r → s.selectedEntity = some r0 →
      r ≠ r0 →
      (markEntityAsSelected id s).matOf r0 = some Material.entityMat) := by
  have hInv := reachable_inv hreach
  refine ⟨hInv.hovMat, hInv.selMat, ?_⟩
  intro id r r0 hget hsel hne
  have hlt : r0 < s.meshes.length := hInv.selValid r0 hsel
  rw [matOf_markEntityAsSelected_some_some id s r r0 hget hsel r0,
    if_neg hne, if_pos rfl]
  obtain ⟨M, hM⟩ := matOf_isSome s r0 hlt
  rw [hM]
  rfl

theorem C1_witness :
    (markEntityAsSelected 2
      (run [Op.set ⟨1, ⟨0, 0, 0⟩⟩, Op.set ⟨2, ⟨1, 0, 0⟩⟩,
        Op.select 1, Op.hover 1])).matOf 0 = some Material.entityMat :=
  (C1_material_invariant
    (run [Op.set ⟨1, ⟨0, 0, 0⟩⟩, Op.set ⟨2, ⟨1, 0, 0⟩⟩, Op.select 1, Op.hover 1])
    ⟨[Op.set ⟨1, ⟨0, 0, 0⟩⟩, Op.set ⟨2, ⟨1, 0, 0⟩⟩, Op.select 1, Op.hover 1],
      rfl⟩).2.2 2 1 0 (by decide) (by decide) (by decide)

/-- Claim C4 (confirmed). Hover handoff: for distinct mapped ids A and B,
hovering A then B leaves A's mesh with the selected material when A is the
selected mesh and the default material otherwise, leaves B's mesh with the
hover material, and in every reachable state at most one mesh displays the
hover material. -/
theorem C4_hover_handoff (s : SceneController) (A B : Int) (ra rb : Nat)
    (hreach : Reachable s) (hAB : A ≠ B)
    (hA : mapGet s.entities A = some ra) (hB : mapGet s.entities B = some rb) :
    (onEntityHovered B (onEntityHovered A s)).matOf ra =
      some (if s.selectedEntity = some ra then Material.selectedMat
            else Material.entityMat) ∧
    (onEntityHovered B (onEntityHovered A s)).matOf rb = some Material.hoveredMat ∧
    (∀ t, Reachable t → ∀ r1 r2, t.matOf r1 = some Material.hoveredMat →
      t.matOf r2 = some Material.hoveredMat → r1 = r2) := by
  have hInv := reachable_inv hreach
  have hra : ra < s.meshes.length := hInv.get_lt hA
  have hrb : rb < s.meshes.length := hInv.get_lt hB
  have hrarb : rb ≠ ra := by
    intro h
    have hB' : mapGet s.entities B = some ra := by rw [← h]; exact hB
    exact hAB (hInv.get_inj hA hB')
  obtain ⟨he1, hs1, hh1, hl1⟩ := onEntityHovered_some_proj A s ra hA
  have hB1 : mapGet (onEntityHovered A s).entities B = some rb := by
    rw [he1]; exact hB
  have hs1ra : ∃ M, (onEntityHovered A s).matOf ra = some M :=
    matOf_isSome _ ra (by rw [hl1]; exact hra)
  have hs1rb : ∃ M, (onEntityHovered A s).matOf rb = some M :=
    matOf_isSome _ rb (by rw [hl1]; exact hrb)
  have hthird : ∀ t, Reachable t → ∀ r1 r2,
      t.matOf r1 = some Material.hoveredMat →
      t.matOf r2 = some Material.hoveredMat → r1 = r2 := by
    intro t ht r1 r2 h1 h2
    have hIt := reachable_inv ht
    have e1 := hIt.hovMat r1 h1
    have e2 := hIt.hovMat r2 h2
    rw [e1] at e2
    exact Option.some_injective _ e2
  by_cases hc : s.selectedEntity = some ra
  · have hc1 : (onEntityHovered A s).selectedEntity = some ra := by
      rw [hs1]; exact hc
    have hm := matOf_onEntityHovered_restore B (onEntityHovered A s) rb ra
      Material.selectedMat hB1 hh1
      (onEntityHovered_def_hovsel B (onEntityHovered A s) rb ra hB1 hh1 hc1)
    refine ⟨?_, ?_, hthird⟩
    · rw [hm ra, if_neg hrarb, if_pos rfl, if_pos hc]
      obtain ⟨M, hM⟩ := hs1ra
      rw [hM]
      rfl
    · rw [hm rb, if_pos rfl]
      obtain ⟨M, hM⟩ := hs1rb
      rw [hM]
      rfl
  · have hc1 : ¬(onEntityHovered A s).selectedEntity = some ra := by
      rw [hs1]; exact hc
    have hm := matOf_onEntityHovered_restore B (onEntityHovered A s) rb ra
      Material.entityMat hB1 hh1
      (onEntityHovered_def_hovother B (onEntityHovered A s) rb ra hB1 hh1 hc1)
    refine ⟨?_, ?_, hthird⟩
    · rw [hm ra, if_neg hrarb, if_pos rfl, if_neg hc]
      obtain ⟨M, hM⟩ := hs1ra
      rw [hM]
      rfl
    · rw [hm rb, if_pos rfl]
      obtain ⟨M, hM⟩ := hs1rb
      rw [hM]
      rfl

theorem C4_witness :
    (onEntityHovered 2 (onEntityHovered 1
      (run [Op.set ⟨1, ⟨0, 0, 0⟩⟩, Op.set ⟨2, ⟨1, 0, 0⟩⟩]))).matOf 0 =
      some (if (run [Op.set ⟨1, ⟨0, 0, 0⟩⟩, Op.set ⟨2, ⟨1, 0, 0⟩⟩]).selectedEntity =
          some 0 then Material.selectedMat else Material.entityMat) ∧
    (onEntityHovered 2 (onEntityHovered 1
      (run [Op.set ⟨1, ⟨0, 0, 0⟩⟩, Op.set ⟨2, ⟨1, 0, 0⟩⟩]))).matOf 1 =
      some Material.hoveredMat := by
  have h := C4_hover_handoff (run [Op.set ⟨1, ⟨0, 0, 0⟩⟩, Op.set ⟨2, ⟨1, 0, 0⟩⟩])
    1 2 0 1 ⟨[Op.set ⟨1, ⟨0, 0, 0⟩⟩, Op.set ⟨2, ⟨1, 0, 0⟩⟩], rfl⟩
    (by decide) (by decide) (by decide)
  exact ⟨h.1, h.2.1⟩

/-- Claim C7 as stated is false: calling createEntity twice with the same id
leaves two scene meshes stamped with the same id (the first mesh is
orphaned; only the map entry is replaced), so the scene does not contain at
most one entity mesh per id. -/
theorem C7_counterexample :
    ((run [Op.create ⟨1, ⟨0, 0, 0⟩⟩, Op.create ⟨1, ⟨0, 0, 0⟩⟩]).meshes.filter
      (fun m => m.sid = jsNumToString 1)).length = 2 := by decide

/-- Claim C7 (amended). One-mesh-per-id invariant of the map: in every
reachable state the id→mesh map associates each id with at most one mesh
and no mesh with two ids (keys and values are both duplicate-free);
repeated `createEntity` with the same id replaces the map entry but leaves
the previous mesh in the scene. After an update pass (`hideAllEntities`
followed by `setEntity` for the entities of the pass), a mapped mesh is
enabled exactly when its id was present in the pass. -/
theorem C7_map_one_to_one (s : SceneController) (hreach : Reachable s)
    (S : List IEntity) :
    (s.entities.map Prod.fst).Nodup ∧ (s.entities.map Prod.snd).Nodup ∧
    (∀ id r, mapGet (runSets (hideAllEntities s) S).entities id = some r →
      ((runSets (hideAllEntities s) S).enabledOf r = some true ↔
        id ∈ S.map IEntity.id)) := by
  have hInv := reachable_inv hreach
  have hInv2 : Inv (hideAllEntities s) := inv_hideAllEntities s hInv
  refine ⟨hInv.keysNodup, hInv.valsNodup, ?_⟩
  intro id r hget
  have hbase : ∀ id r, mapGet (hideAllEntities s).entities id = some r →
      ((hideAllEntities s).enabledOf r = some true ↔ False) := by
    intro id2 r2 hget2
    rw [hideAll_enabled s hInv id2 r2 hget2]
    simp
  have hmain := runSets_enabled S _ (fun _ => False) hInv2 hbase id r hget
  rw [hmain]
  simp

theorem C7_witness :
    ((run [Op.create ⟨1, ⟨0, 0, 0⟩⟩]).entities.map Prod.fst).Nodup ∧
    ((runSets (hideAllEntities (run [Op.create ⟨1, ⟨0, 0, 0⟩⟩]))
        [⟨1, ⟨0, 0, 0⟩⟩]).enabledOf 0 = some true ↔
      (1 : Int) ∈ ([(⟨1, ⟨0, 0, 0⟩⟩ : IEntity)].map IEntity.id)) := by
  have h := C7_map_one_to_one (run [Op.create ⟨1, ⟨0, 0, 0⟩⟩])
    ⟨[Op.create ⟨1, ⟨0, 0, 0⟩⟩], rfl⟩ [⟨1, ⟨0, 0, 0⟩⟩]
  exact ⟨h.1, h.2.2 1 0 (by decide)⟩

/-- Claim C2 as stated is false: pressing Cancel with "Don't ask again"
checked does not set the session flag that suppresses future dialogs — the
flag stays true. -/
theorem C2_counterexample :
    (handleClear { showClearDataDialog := true }
      { response := 1, checkboxChecked := true }).1.showClearDataDialog = true ∧
    (handleClear { showClearDataDialog := true }
      { response := 1, checkboxChecked := true }).2 =
      { clear := false, remember := true } := by decide

/-- Claim C2 (amended). Clear-message protocol: a Clear message yields
exactly one ClearResult payload. When the dialog is shown, the payload is
`{clear: response == 0, remember: checkboxChecked}`, and the session flag
that suppresses future dialogs is set exactly when the user both chooses
"Remove data" (button 0) and checks the checkbox — not whenever the
checkbox alone is checked. When the flag already suppresses the dialog, the
reply is `{clear: true, remember: true}` and the options are unchanged. -/
theorem C2_clear_protocol (s : SessionOptions) (d : DialogResult) :
    (s.showClearDataDialog = true →
      (handleClear s d).2 =
        { clear := d.response == 0, remember := d.checkboxChecked } ∧
      ((handleClear s d).1.showClearDataDialog = false ↔
        (d.response = 0 ∧ d.checkboxChecked = true))) ∧
    (s.showClearDataDialog = false →
      (handleClear s d).2 = { clear := true, remember := true } ∧
      (handleClear s d).1 = s) := by
  constructor
  · intro hs
    have hdef : handleClear s d =
        ((if (d.response == 0) && d.checkboxChecked
            then ({ showClearDataDialog := false } : SessionOptions) else s),
         { clear := d.response == 0, remember := d.checkboxChecked }) := by
      rw [handleClear, hs]
      rfl
    rw [hdef]
    refine ⟨rfl, ?_⟩
    by_cases hr : d.response = 0
    · by_cases hcb : d.checkboxChecked = true
      · simp [hr, hcb]
      · have hcb' : d.checkboxChecked = false := by simpa using hcb
        simp [hr, hcb', hs]
    · have hr' : (d.response == 0) = false := by simp [hr]
      simp [hr', hr, hs]
  · intro hs
    rw [handleClear, hs]
    exact ⟨rfl, rfl⟩

theorem C2_witness :
    ((handleClear { showClearDataDialog := true }
        { response := 0, checkboxChecked := true }).2 =
      { clear := (0 == 0 : Bool), remember := true } ∧
     ((handleClear { showClearDataDialog := true }
        { response := 0, checkboxChecked := true }).1.showClearDataDialog = false ↔
       ((0 : Nat) = 0 ∧ (true : Bool) = true))) :=
  (C2_clear_protocol { showClearDataDialog := true }
    { response := 0, checkboxChecked := true }).1 rfl

/-- Claim C10 (confirmed). Frame condition of the visibility operations:
`hideAllEntities` changes only the enabled flag of the mapped meshes (map,
back-references, materials, identifiers and positions of unmapped meshes
untouched); `setEntity` keeps both back-references, keeps every other
mapped mesh entirely unchanged, and keeps every pre-existing mesh's
material and stamped identifier; hence a whole hide-then-show update pass
preserves every pre-existing mesh's material, in particular that of the
selected and of the hovered mesh. -/
theorem C10_frame_condition (s : SceneController) (e : IEntity)
    (S : List IEntity) (hreach : Reachable s) :
    (hideAllEntities s).entities = s.entities ∧
    (hideAllEntities s).selectedEntity = s.selectedEntity ∧
    (hideAllEntities s).hoveredEntity = s.hoveredEntity ∧
    (∀ r, (hideAllEntities s).meshAt r =
      if r ∈ s.entities.map Prod.snd then
        (s.meshAt r).map (fun m => { m with enabled := false })
      else s.meshAt r) ∧
    (setEntity e s).selectedEntity = s.selectedEntity ∧
    (setEntity e s).hoveredEntity = s.hoveredEntity ∧
    (∀ id r, id ≠ e.id → mapGet s.entities id = some r →
      mapGet (setEntity e s).entities id = some r ∧
      (setEntity e s).meshAt r = s.meshAt r) ∧
    (∀ r, r < s.meshes.length → (setEntity e s).matOf r = s.matOf r ∧
      ((setEntity e s).meshAt r).map Mesh.sid = (s.meshAt r).map Mesh.sid) ∧
    (∀ r, r < s.meshes.length →
      (runSets (hideAllEntities s) S).matOf r = s.matOf r) ∧
    (∀ r, s.selectedEntity = some r ∨ s.hoveredEntity = some r →
      (runSets (hideAllEntities s) S).matOf r = s.matOf r) := by
  have hInv := reachable_inv hreach
  have hpass : ∀ r, r < s.meshes.length →
      (runSets (hideAllEntities s) S).matOf r = s.matOf r := by
    intro r hr
    rw [matOf_runSets S (hideAllEntities s) r (by rw [length_hideAllEntities]; exact hr),
      matOf_hideAllEntities]
  refine ⟨hideAllEntities_entities s, hideAllEntities_selected s,
    hideAllEntities_hovered s, meshAt_hideAllEntities s,
    setEntity_sel e s, setEntity_hov e s,
    fun id r hne hget => setEntity_frame_other e s id r hInv hne hget,
    fun r hr => ⟨matOf_setEntity e s r hr, sid_setEntity e s r hr⟩,
    hpass, ?_⟩
  intro r hr
  rcases hr with hr | hr
  · exact hpass r (hInv.selValid r hr)
  · exact hpass r (hInv.hovValid r hr)

theorem C10_witness :
    (hideAllEntities (run [Op.set ⟨1, ⟨0, 0, 0⟩⟩, Op.select 1])).entities =
      (run [Op.set ⟨1, ⟨0, 0, 0⟩⟩, Op.select 1]).entities ∧
    (setEntity ⟨2, ⟨1, 0, 0⟩⟩
        (run [Op.set ⟨1, ⟨0, 0, 0⟩⟩, Op.select 1])).selectedEntity =
      (run [Op.set ⟨1, ⟨0, 0, 0⟩⟩, Op.select 1]).selectedEntity ∧
    (setEntity ⟨2, ⟨1, 0, 0⟩⟩
        (run [Op.set ⟨1, ⟨0, 0, 0⟩⟩, Op.select 1])).matOf 0 =
      (run [Op.set ⟨1, ⟨0, 0, 0⟩⟩, Op.select 1]).matOf 0 ∧
    (runSets (hideAllEntities (run [Op.set ⟨1, ⟨0, 0, 0⟩⟩, Op.select 1]))
        [⟨1, ⟨0, 0, 0⟩⟩]).matOf 0 =
      (run [Op.set ⟨1, ⟨0, 0, 0⟩⟩, Op.select 1]).matOf 0 := by
  have h := C10_frame_condition (run [Op.set ⟨1, ⟨0, 0, 0⟩⟩, Op.select 1])
    ⟨2, ⟨1, 0, 0⟩⟩ [⟨1, ⟨0, 0, 0⟩⟩]
    ⟨[Op.set ⟨1, ⟨0, 0, 0⟩⟩, Op.select 1], rfl⟩
  exact ⟨h.1, h.2.2.2.2.1, (h.2.2.2.2.2.2.2.1 0 (by decide)).1,
    h.2.2.2.2.2.2.2.2.1 0 (by decide)⟩

end Project
